import Mathlib

/-!
Verification development for the makroud / sqlxx ORM core.

The Go sources are shallowly embedded: pure query-building logic becomes
Lean functions on explicit schema/entity values, the database driver is an
oracle (a record of functions), and every embedded operation additionally
returns the ordered list of SQL statements it submits to the driver, so
that claims about "which queries are issued" are statements about that
trace.  Go `int64` primary keys are modelled as `Int` (zero value `0`),
Go maps as association lists, and fallible reflection accessors as
`Except String`.
-/

namespace Sqlxx

/-- Struct-tag constants of the source (`sqlxx:"..."` / `db:"..."`). -/
def StructTagName : String := "sqlxx"

def StructTagIgnored : String := "ignored"

def StructTagDefault : String := "default"

/-- One parsed struct tag: a list of key/value properties.
`get` returns the empty string for a missing key, like Go's `Tag.Get`. -/
structure QTag where
  entries : List (String × String)
deriving DecidableEq, Repr

def QTag.get (t : QTag) (key : String) : String :=
  match List.lookup key t.entries with
  | some v => v
  | none => ""

/-- A mapped field as used by `queries.go` (`Field` of the sqlxx version):
struct field name, database column name, and its parsed tags
(`Tags` maps a tag name such as "sqlxx" to a `QTag`). -/
structure QField where
  name : String
  columnName : String
  tags : List (String × QTag)
deriving DecidableEq, Repr

/-- Go `Tags.Get`: lookup of a tag by name, `nil, err` on a miss. -/
def tagsGet (tags : List (String × QTag)) (name : String) : Option QTag :=
  List.lookup name tags

/-- Mirrors `queries.go` Save: `isIgnored = len(tag.Get(StructTagIgnored)) != 0`
(false when the "sqlxx" tag itself is absent). -/
def QField.isIgnored (f : QField) : Bool :=
  match tagsGet f.tags StructTagName with
  | some tag => (tag.get StructTagIgnored).length != 0
  | none => false

/-- Mirrors `defaultValue = tag.Get(StructTagDefault)` in Save. -/
def QField.defaultVal (f : QField) : String :=
  match tagsGet f.tags StructTagName with
  | some tag => tag.get StructTagDefault
  | none => ""

/-- Mirrors `hasDefault = len(defaultValue) != 0` in Save. -/
def QField.hasDefault (f : QField) : Bool :=
  f.defaultVal.length != 0

/-- The schema consumed by `queries.go`: table name, the unique primary-key
field, and the fields.  Go iterates `schema.Fields` (a map) in an
unspecified order; the embedding takes the iteration order as the list
order and the theorems quantify over it. -/
structure QSchema where
  tableName : String
  primaryField : QField
  fields : List QField
deriving DecidableEq, Repr

/-- Go map indexing `schema.Fields[fieldName]` yields the zero `Field`
value on a miss. -/
def QSchema.fieldByName (s : QSchema) (name : String) : QField :=
  match s.fields.find? (fun f => f.name == name) with
  | some f => f
  | none => { name := "", columnName := "", tags := [] }

/-- An entity instance as seen by Save/Delete/SoftDelete: only its
primary-key value matters to the control flow (an `int64`, zero = `0`). -/
structure QEntity where
  pkValue : Int
deriving DecidableEq, Repr

/-- Go `isZeroValue` specialised to the `int64` primary keys the code reads. -/
def isZeroValue (v : Int) : Bool := v == 0

/-- The driver oracle for `queries.go`: `NamedExec` and the
`PrepareNamed`+`Get` combination used by Save. -/
structure QDriver where
  namedExec : String → Except String Unit
  prepareGet : String → Except String Unit

/-- A driver that accepts everything (used for concrete evaluations). -/
def okQDriver : QDriver :=
  { namedExec := fun _ => .ok (), prepareGet := fun _ => .ok () }

/-- Embedding of `Delete` (src/queries.go): zero primary key returns the
error before any driver call; otherwise one `DELETE FROM t WHERE pk = :pk`
is submitted.  The second component is the trace of submitted statements. -/
def DeleteGo (d : QDriver) (s : QSchema) (e : QEntity) :
    Except String Unit × List String :=
  if isZeroValue e.pkValue then
    (.error "has no primary key, cannot be deleted", [])
  else
    let wheres := [s.primaryField.columnName ++ " = :" ++ s.primaryField.columnName]
    let query := "DELETE FROM " ++ s.tableName ++ " WHERE " ++ String.intercalate ", " wheres
    (d.namedExec query, [query])

/-- Embedding of `SoftDelete` (src/queries.go): same zero-key guard, then
one `UPDATE t SET f = :f WHERE pk = :pk` bound to the current time. -/
def SoftDeleteGo (d : QDriver) (s : QSchema) (e : QEntity) (fieldName : String) :
    Except String Unit × List String :=
  if isZeroValue e.pkValue then
    (.error "has no primary key, cannot be deleted", [])
  else
    let wheres := [s.primaryField.columnName ++ " = :" ++ s.primaryField.columnName]
    let field := s.fieldByName fieldName
    let query := "UPDATE " ++ s.tableName ++ " SET " ++ field.columnName ++ " = :"
      ++ field.columnName ++ " WHERE " ++ String.intercalate ", " wheres
    (d.namedExec query, [query])

/-- The column-collection loop of `Save`: left-to-right over the fields,
producing (columns, ignoredColumns, values) exactly as the Go appends do.
An ignored field goes only to `ignoredColumns`; a defaulted field goes to
`ignoredColumns` too and contributes its literal default expression as the
value; every other field contributes the bound parameter `:col`. -/
def saveCollect : List QField → List String × List String × List String
  | [] => ([], [], [])
  | f :: rest =>
    let (cols, igns, vals) := saveCollect rest
    ((if f.isIgnored then [] else [f.columnName]) ++ cols,
     (if f.isIgnored || f.hasDefault then [f.columnName] else []) ++ igns,
     (if f.isIgnored then []
      else [if f.hasDefault then f.defaultVal else ":" ++ f.columnName]) ++ vals)

/-- Embedding of `Save` (src/queries.go): builds INSERT on a zero primary
key and UPDATE otherwise, appends a RETURNING clause when ignored-or-
defaulted columns exist, and submits the single statement through
`PrepareNamed` + `Get`. -/
def SaveGo (d : QDriver) (s : QSchema) (e : QEntity) :
    Except String Unit × List String :=
  let collected := saveCollect s.fields
  let columns := collected.1
  let ignoredColumns := collected.2.1
  let values := collected.2.2
  let base :=
    if isZeroValue e.pkValue then
      "INSERT INTO " ++ s.tableName ++ " (" ++ String.intercalate ", " columns
        ++ ") VALUES (" ++ String.intercalate ", " values ++ ")"
    else
      let updates := List.zipWith (fun c v => c ++ " = " ++ v) columns values
      let wheres := [s.primaryField.columnName ++ " = :" ++ s.primaryField.columnName]
      "UPDATE " ++ s.tableName ++ " SET " ++ String.intercalate ", " updates
        ++ " WHERE " ++ String.intercalate ", " wheres
  let query :=
    if ignoredColumns.length > 0 then
      base ++ (" RETURNING " ++ String.intercalate ", " ignoredColumns)
    else base
  (d.prepareGet query, [query])

/-- Outcome of the sqlxx selector `Retry`: either the sentinel error for an
empty driver list or the error of a failed handler invocation. -/
inductive RetryError (E : Type) where
  | missingConnection
  | handlerError (e : E)
deriving DecidableEq, Repr

/-- The retry loop of `Retry` (src/selector.go): `err` is the Go named
return carrying the last handler error; a `nil` handler result returns
immediately.  The second component is the ordered list of drivers the
handler was invoked on. -/
def retryLoop {D E : Type} (handler : D → Option E) (errAcc : Option E) :
    List D → Option E × List D
  | [] => (errAcc, [])
  | d :: ds =>
    match handler d with
    | none => (none, [d])
    | some e =>
      let (r, t) := retryLoop handler (some e) ds
      (r, d :: t)

/-- Embedding of `Retry` (src/selector.go).  `none` models Go's `nil`
error; the trace lists the drivers the handler actually ran on. -/
def RetryGo {D E : Type} (handler : D → Option E) (drivers : List D) :
    Option (RetryError E) × List D :=
  if drivers.isEmpty then (some .missingConnection, [])
  else
    let rt := retryLoop handler none drivers
    (rt.1.map .handlerError, rt.2)

/-! Embedding of src/schema.go (sqlxx schema introspection).

A Go value's runtime behaviour relevant to `GetSchema` is captured per
field: its reflect kind, whether its value's dynamic type implements the
`Model` interface, its two struct tags, and — when it is a model — its
table name.  `GoResult` distinguishes a returned error value from a Go
panic (the unchecked type assertion `relatedValue.(Model)` on line 98
panics when the field's type does not implement `Model`). -/

inductive GoKind where
  | struct
  | ptr
  | scalar
deriving DecidableEq, Repr

structure SField where
  name : String
  kind : GoKind
  implementsModel : Bool
  dbTag : String
  sqlxxTag : String
  relatedTableName : String
deriving DecidableEq, Repr

structure SModel where
  tableName : String
  fields : List SField
deriving DecidableEq, Repr

structure SColumn where
  tableName : String
  name : String
  prefixedName : String
deriving DecidableEq, Repr

structure SRelatedField where
  fk : SColumn
  fkReference : SColumn
deriving DecidableEq, Repr

structure SSchema where
  columns : List (String × SColumn)
  associations : List (String × SRelatedField)
deriving DecidableEq, Repr

/-- Result of running a Go function: a value, a returned error value, or
an uncontrolled panic. -/
inductive GoResult (α : Type) where
  | ok (a : α)
  | err (e : String)
  | crash (msg : String)
deriving DecidableEq, Repr

def snakeChar (c : Char) : String :=
  if c.isUpper then "_" ++ c.toLower.toString else c.toString

/-- Camel-case to snake-case conversion used for default column names. -/
def toSnakeCase (s : String) : String :=
  match s.data with
  | [] => ""
  | c :: rest => c.toLower.toString ++ String.join (rest.map snakeChar)

/-- Embedding of `newColumn` (src/schema.go): default name is the
snake-cased field name, overridden by a tag; foreign keys default to
`<name>_id` and references to `id`. -/
def newColumnGo (tableName field tag : String) (isRelated isReference : Bool) : SColumn :=
  let hasTag := tag.length > 0
  let column := if hasTag then tag else toSnakeCase field
  if !isRelated then
    ⟨tableName, column, tableName ++ "." ++ column⟩
  else if isReference then
    let c := if hasTag then tag else "id"
    ⟨tableName, c, tableName ++ "." ++ c⟩
  else
    let c := if hasTag then tag else column ++ "_id"
    ⟨tableName, c, tableName ++ "." ++ c⟩

/-- Embedding of `newRelatedField` (src/schema.go).  The source performs
the unchecked assertion `related := relatedValue.(Model)` before building
either column; when the field's dynamic type does not implement `Model`
this is a runtime panic, not a returned error. -/
def newRelatedFieldGo (model : SModel) (f : SField) : GoResult SRelatedField :=
  if !f.implementsModel then
    .crash "interface conversion: related value does not implement sqlxx.Model"
  else
    .ok { fk := newColumnGo model.tableName f.name f.dbTag true false,
          fkReference := newColumnGo f.relatedTableName f.name f.sqlxxTag true true }

/-- The field loop of `GetSchema` (src/schema.go): struct- or
pointer-kinded fields become associations via `newRelatedField`, all other
fields become plain columns via `newColumn` with their db tag. -/
def getSchemaLoop (model : SModel) :
    List SField → List (String × SColumn) → List (String × SRelatedField) →
    GoResult SSchema
  | [], cols, assocs => .ok ⟨cols, assocs⟩
  | f :: rest, cols, assocs =>
    if f.kind == GoKind.struct || f.kind == GoKind.ptr then
      match newRelatedFieldGo model f with
      | .crash m => .crash m
      | .err e => .err e
      | .ok rf => getSchemaLoop model rest cols (assocs ++ [(f.name, rf)])
    else
      getSchemaLoop model rest
        (cols ++ [(f.name, newColumnGo model.tableName f.name f.dbTag false false)]) assocs

/-- Embedding of `GetSchema` (src/schema.go). -/
def GetSchemaGo (model : SModel) : GoResult SSchema :=
  getSchemaLoop model model.fields [] []

/-- A model whose `CreatedAt time.Time` field is struct-kinded but whose
type does not implement `Model` — the failing input for the schema
introspection claim. -/
def badTimeField : SField :=
  { name := "CreatedAt", kind := .struct, implementsModel := false,
    dbTag := "created_at", sqlxxTag := "", relatedTableName := "" }

def badUserModel : SModel :=
  { tableName := "users",
    fields := [{ name := "ID", kind := .scalar, implementsModel := false,
                 dbTag := "id", sqlxxTag := "", relatedTableName := "" },
               badTimeField] }

/-! Embedding of the preloader (src/unnamed/part_004).

Instances are records of named `int64` fields plus named association
destination fields; `AssocVal` is the value of such a destination field
(unset, a single related instance, or a slice of them).  Reflection
accessors (`GetInt64PrimaryKey`, `GetFieldValue`, `SetFieldValue`) become
`Except String` lookups on those records.  Every preload function returns
its performed `Queries` list in issuance order, the error (`none` = nil),
and the post-state of the instance(s) it would have mutated in place. -/

mutual
inductive PInstance where
  | mk (ints : List (String × Int)) (assocs : List (String × AssocVal))
inductive AssocVal where
  | unset
  | one (inst : PInstance)
  | many (insts : List PInstance)
end

def PInstance.ints : PInstance → List (String × Int)
  | .mk i _ => i

def PInstance.assocs : PInstance → List (String × AssocVal)
  | .mk _ a => a

/-- Model of `GetInt64PrimaryKey(out, name)`: reads a named int64 field,
failing when the field does not exist. -/
def getIntField (inst : PInstance) (name : String) : Except String Int :=
  match List.lookup name inst.ints with
  | some v => .ok v
  | none => .error ("no such field: " ++ name)

/-- Model of `GetFieldValue(out, name)` for association destinations. -/
def getAssocField (inst : PInstance) (name : String) : Except String AssocVal :=
  match List.lookup name inst.assocs with
  | some v => .ok v
  | none => .error ("no such field: " ++ name)

def replaceAssoc : List (String × AssocVal) → String → AssocVal → List (String × AssocVal)
  | [], _, _ => []
  | (k, w) :: rest, name, v =>
    if k == name then (k, v) :: rest else (k, w) :: replaceAssoc rest name v

/-- Model of `SetFieldValue(out, name, v)`: errors when the field does not
exist, otherwise replaces it. -/
def setAssocField (inst : PInstance) (name : String) (v : AssocVal) :
    Except String PInstance :=
  match List.lookup name inst.assocs with
  | some _ => .ok (.mk inst.ints (replaceAssoc inst.assocs name v))
  | none => .error ("no such field: " ++ name)

/-- A bound parameter value: a scalar key or a key list (the batched IN
case). -/
inductive PVal where
  | int (i : Int)
  | ints (l : List Int)
deriving DecidableEq, Repr

/-- The query record kept by the preloader (`Query` of part_004): query
text, named parameters, and whether it is a single-row fetch. -/
structure PQuery where
  text : String
  params : List (String × PVal)
  fetchOne : Bool
deriving DecidableEq, Repr

/-- The facts about a referenced model that query building needs: its
table name and its qualified column list (`Schema.ColumnPaths()`). -/
structure RefModel where
  tableName : String
  columnPaths : String
deriving DecidableEq, Repr

/-- The `ForeignKey` payload of an association `Field` in part_004. -/
structure PFK where
  fieldName : String
  associationFieldName : String
  model : RefModel
  referenceColumnName : String
  referenceAssociationFieldName : String
  referenceModel : RefModel
deriving DecidableEq, Repr

/-- The association `Field` of part_004.  The name-valued accessors
(`PrimaryKeyFieldName()`, `RelationFieldName()`, `RelationColumnName()`,
`RelationPrimaryKeyFieldName()`) are carried as data since the preloader
only ever reads them. -/
structure PField where
  name : String
  isAssociation : Bool
  typeOne : Bool
  foreignKey : Option PFK
  destinationField : String
  primaryKeyFieldName : String
  relationFieldName : String
  relationColumnName : String
  relationPrimaryKeyFieldName : String
deriving DecidableEq, Repr

structure PSchema where
  associations : List (String × PField)
deriving DecidableEq, Repr

/-- The driver oracle for the preloader: single-row and multi-row fetch. -/
structure PDriver where
  get : PQuery → Except String PInstance
  select : PQuery → Except String (List PInstance)

/-- Message of the Go runtime panic a nil `ForeignKey` dereference would
raise; the embedding surfaces it as an error value on branches no claim
exercises. -/
def nilPointerMsg : String :=
  "runtime error: invalid memory address or nil pointer dereference"

/-- Embedding of `whereQuery` (src/queries.go) applied to a relation
model.  The bodies of `Schema.ColumnPaths` and `Schema.WhereColumnPaths`
are not among the sources.  Modelled from the spec: the qualified column
list is taken from the model record, and the WHERE clause is the ANDed
`col = :col` equality predicates of the params. -/
def whereQueryP (m : RefModel) (params : List (String × PVal)) (fetchOne : Bool) : String :=
  let wheres := String.intercalate " AND " (params.map (fun p => p.1 ++ " = :" ++ p.1))
  let q := "SELECT " ++ m.columnPaths ++ " FROM " ++ m.tableName ++ " WHERE " ++ wheres
  if fetchOne then q ++ " LIMIT 1" else q

/-- `FindByParamsWithQueries`: `FindByParams` returning its performed
queries.  Mirrors `where` (src/queries.go): exactly one SELECT built by
`whereQuery` with `fetchOne = false`, run through the multi-row fetch. -/
def findByParamsWithQueriesP (d : PDriver) (m : RefModel)
    (params : List (String × PVal)) : List PQuery × Except String (List PInstance) :=
  let q : PQuery := { text := whereQueryP m params false, params := params, fetchOne := false }
  ([q], d.select q)

/-- Embedding of `checkAssociation` (part_004). -/
def checkAssociationP (f : PField) : Option String :=
  if !f.isAssociation then some ("field '" ++ f.name ++ "' is not an association")
  else
    match f.foreignKey with
    | none => some ("no ForeignKey instance found for field " ++ f.name)
    | some _ => none

/-- Embedding of `preloadSingleOne` (part_004): a zero foreign key means
"no related row" — no query, no error, instance untouched; otherwise one
single-row fetch on the reference primary key, assigned to the
association field. -/
def preloadSingleOneP (d : PDriver) (f : PField) (inst : PInstance) :
    List PQuery × Option String × PInstance :=
  match checkAssociationP f with
  | some e => ([], some e, inst)
  | none =>
    match f.foreignKey with
    | none => ([], some nilPointerMsg, inst)
    | some pfk =>
      match getIntField inst pfk.fieldName with
      | .error e => ([], some e, inst)
      | .ok fk =>
        if fk == 0 then ([], none, inst)
        else
          let params := [(pfk.referenceColumnName, PVal.int fk)]
          let q : PQuery :=
            ⟨whereQueryP pfk.referenceModel params f.typeOne, params, f.typeOne⟩
          match d.get q with
          | .error e => ([q], some e, inst)
          | .ok relation =>
            match setAssocField inst pfk.associationFieldName (.one relation) with
            | .error e => ([q], some e, inst)
            | .ok inst2 => ([q], none, inst2)

/-- Embedding of `preloadSingleMany` (part_004): a zero primary key means
no query; otherwise one multi-row fetch on the relation column. -/
def preloadSingleManyP (d : PDriver) (f : PField) (inst : PInstance) :
    List PQuery × Option String × PInstance :=
  match getIntField inst f.primaryKeyFieldName with
  | .error e => ([], some e, inst)
  | .ok fk =>
    if fk == 0 then ([], none, inst)
    else
      match f.foreignKey with
      | none => ([], some nilPointerMsg, inst)
      | some pfk =>
        match findByParamsWithQueriesP d pfk.model [(f.relationColumnName, PVal.int fk)] with
        | (qs, .error e) => (qs, some e, inst)
        | (qs, .ok relations) =>
          match setAssocField inst pfk.referenceAssociationFieldName (.many relations) with
          | .error e => (qs, some e, inst)
          | .ok inst2 => (qs, none, inst2)

/-- The distinct-nonzero key accumulation of the slice preloads:
`if fk != 0 && !InInt64Slice(keys, fk) ... append`. -/
def insertDistinctNonzero (keys : List Int) (k : Int) : List Int :=
  if k != 0 && !(keys.contains k) then keys ++ [k] else keys

/-- Go map assignment on an association list: replace if present, else
append. -/
def alistSet {β : Type} : List (Int × β) → Int → β → List (Int × β)
  | [], k, v => [(k, v)]
  | (k2, w) :: rest, k, v =>
    if k2 == k then (k2, v) :: rest else (k2, w) :: alistSet rest k v

/-- The collection loop of `preloadSliceOne`: distinct nonzero foreign
keys, and the `pk -> fk -> instance` mapping (instances identified by
their position, standing in for the Go pointer). -/
def sliceOneCollect (f : PField) :
    List PInstance → Nat → List Int → List (Int × List (Int × Nat)) →
    Except String (List Int × List (Int × List (Int × Nat)))
  | [], _, fks, m => .ok (fks, m)
  | inst :: rest, idx, fks, m =>
    match getIntField inst f.primaryKeyFieldName with
    | .error e => .error e
    | .ok pk =>
      match getIntField inst f.relationFieldName with
      | .error e => .error e
      | .ok fk =>
        let fks2 := insertDistinctNonzero fks fk
        let fkMap := (List.lookup pk m).getD []
        sliceOneCollect f rest (idx + 1) fks2 (alistSet m pk (alistSet fkMap fk idx))

/-- Inner redistribution loop of `preloadSliceOne`: for one `fk -> index`
map, walk the fetched relations and assign each matching relation to the
instance holding its primary key as foreign key. -/
def sliceOneApplyRels (f : PField) (assocName : String) (fkMap : List (Int × Nat)) :
    List PInstance → List PInstance → List PInstance × Option String
  | [], insts => (insts, none)
  | r :: rest, insts =>
    match getIntField r f.relationPrimaryKeyFieldName with
    | .error e => (insts, some e)
    | .ok relPK =>
      match List.lookup relPK fkMap with
      | none => sliceOneApplyRels f assocName fkMap rest insts
      | some idx =>
        match insts[idx]? with
        | none => sliceOneApplyRels f assocName fkMap rest insts
        | some inst =>
          match setAssocField inst assocName (.one r) with
          | .error e => (insts, some e)
          | .ok inst2 => sliceOneApplyRels f assocName fkMap rest (insts.set idx inst2)

/-- Outer redistribution loop of `preloadSliceOne` over the pk mapping. -/
def sliceOneApply (f : PField) (assocName : String) (relations : List PInstance) :
    List (Int × List (Int × Nat)) → List PInstance → List PInstance × Option String
  | [], insts => (insts, none)
  | (_, fkMap) :: restMap, insts =>
    match sliceOneApplyRels f assocName fkMap relations insts with
    | (insts2, some e) => (insts2, some e)
    | (insts2, none) => sliceOneApply f assocName relations restMap insts2

/-- Embedding of `preloadSliceOne` (part_004): collect distinct nonzero
foreign keys across all elements, issue exactly one batched query binding
the key list to the relation column, then fan the fetched rows back in. -/
def preloadSliceOneP (d : PDriver) (f : PField) (insts : List PInstance) :
    List PQuery × Option String × List PInstance :=
  match sliceOneCollect f insts 0 [] [] with
  | .error e => ([], some e, insts)
  | .ok (fks, mapping) =>
    match f.foreignKey with
    | none => ([], some nilPointerMsg, insts)
    | some pfk =>
      match findByParamsWithQueriesP d pfk.referenceModel
          [(f.relationColumnName, PVal.ints fks)] with
      | (qs, .error e) => (qs, some e, insts)
      | (qs, .ok relations) =>
        match sliceOneApply f pfk.associationFieldName relations mapping insts with
        | (insts2, err) => (qs, err, insts2)

/-- The collection loop of `preloadSliceMany`: distinct nonzero primary
keys; the `fk -> instance` mapping is only extended for newly seen keys. -/
def sliceManyCollect (f : PField) :
    List PInstance → Nat → List Int → List (Int × Nat) →
    Except String (List Int × List (Int × Nat))
  | [], _, fks, m => .ok (fks, m)
  | inst :: rest, idx, fks, m =>
    match getIntField inst f.primaryKeyFieldName with
    | .error e => .error e
    | .ok fk =>
      if fk != 0 && !(fks.contains fk) then
        sliceManyCollect f rest (idx + 1) (fks ++ [fk]) (m ++ [(fk, idx)])
      else
        sliceManyCollect f rest (idx + 1) fks m

/-- Relation-match count for one instance primary key in the grouping loop
of `preloadSliceMany`. -/
def countMatches (pfkFieldName : String) (pk : Int) :
    List PInstance → Except String Nat
  | [] => .ok 0
  | r :: rest =>
    match getIntField r pfkFieldName with
    | .error e => .error e
    | .ok fk =>
      match countMatches pfkFieldName pk rest with
      | .error e => .error e
      | .ok n => .ok (if fk == pk then n + 1 else n)

/-- Grouping loop of `preloadSliceMany`: which mapped instances have at
least one matching fetched relation. -/
def sliceManyGroup (pfkFieldName : String) (relations : List PInstance) :
    List (Int × Nat) → Except String (List (Int × Nat))
  | [] => .ok []
  | (pk, idx) :: restMap =>
    match countMatches pfkFieldName pk relations with
    | .error e => .error e
    | .ok n =>
      match sliceManyGroup pfkFieldName relations restMap with
      | .error e => .error e
      | .ok rest => .ok (if n > 0 then (pk, idx) :: rest else rest)

/-- Assignment loop of `preloadSliceMany`.  The source builds the slice to
assign with `reflect.Append(slc, ...)` but discards its result, so the
value actually set on every matched instance is the empty slice. -/
def sliceManyApply (assocName : String) :
    List (Int × Nat) → List PInstance → List PInstance × Option String
  | [], insts => (insts, none)
  | (_, idx) :: rest, insts =>
    match insts[idx]? with
    | none => sliceManyApply assocName rest insts
    | some inst =>
      match setAssocField inst assocName (.many []) with
      | .error e => (insts, some e)
      | .ok inst2 => sliceManyApply assocName rest (insts.set idx inst2)

/-- Embedding of `preloadSliceMany` (part_004): collect distinct nonzero
primary keys, issue exactly one batched query binding the key list to the
relation column, group fetched rows by foreign key and assign. -/
def preloadSliceManyP (d : PDriver) (f : PField) (insts : List PInstance) :
    List PQuery × Option String × List PInstance :=
  match sliceManyCollect f insts 0 [] [] with
  | .error e => ([], some e, insts)
  | .ok (fks, mapping) =>
    match f.foreignKey with
    | none => ([], some nilPointerMsg, insts)
    | some pfk =>
      match findByParamsWithQueriesP d pfk.model [(f.relationColumnName, PVal.ints fks)] with
      | (qs, .error e) => (qs, some e, insts)
      | (qs, .ok relations) =>
        match sliceManyGroup pfk.fieldName relations mapping with
        | .error e => (qs, some e, insts)
        | .ok groups =>
          match sliceManyApply pfk.referenceAssociationFieldName groups insts with
          | (insts2, err) => (qs, err, insts2)

/-- Conversion of an association value to the single relation instance the
level>1 branches hand to a nested preload.  In Go this is an `interface`
value; an unset (nil) or slice-shaped one makes the nested reflection
accessors fail. -/
def assocToInstance : AssocVal → Except String PInstance
  | .one i => .ok i
  | .unset => .error "nil relation instance"
  | .many _ => .error "relation instance is a slice"

/-- One field of `preloadSingle` (part_004): at depth > 1 the nested
preload runs on a copy of the already-populated destination value and is
written back afterwards; at depth 1 it dispatches on cardinality. -/
def preloadSingleStep (d : PDriver) (level : Nat) (f : PField) (inst : PInstance) :
    List PQuery × Option String × PInstance :=
  if level > 1 then
    match getAssocField inst f.destinationField with
    | .error e => ([], some e, inst)
    | .ok relVal =>
      if f.typeOne then
        match assocToInstance relVal with
        | .error e => ([], some e, inst)
        | .ok relInst =>
          match preloadSingleOneP d f relInst with
          | (qs, some e, _) => (qs, some e, inst)
          | (qs, none, relInst2) =>
            match setAssocField inst f.destinationField (.one relInst2) with
            | .error e => (qs, some e, inst)
            | .ok inst2 => (qs, none, inst2)
      else
        match setAssocField inst f.destinationField relVal with
        | .error e => ([], some e, inst)
        | .ok inst2 => ([], none, inst2)
  else
    if f.typeOne then preloadSingleOneP d f inst
    else preloadSingleManyP d f inst

/-- Embedding of `preloadSingle` (part_004): the fields of one depth in
order, stopping at the first error but keeping the queries issued so far. -/
def preloadSingleP (d : PDriver) (level : Nat) :
    List PField → PInstance → List PQuery × Option String × PInstance
  | [], inst => ([], none, inst)
  | f :: rest, inst =>
    match preloadSingleStep d level f inst with
    | (qs, some e, inst2) => (qs, some e, inst2)
    | (qs, none, inst2) =>
      match preloadSingleP d level rest inst2 with
      | (qs2, err, inst3) => (qs ++ qs2, err, inst3)

/-- Depth>1 collection loop of `preloadSlice`: the copies of every
element's destination value (in element order, identified by position) and
the `pk -> copies` mapping. -/
def sliceLevelCollect (f : PField) :
    List PInstance → Nat → List PInstance → List (Int × List Nat) →
    Except String (List PInstance × List (Int × List Nat))
  | [], _, rels, m => .ok (rels, m)
  | inst :: rest, idx, rels, m =>
    match getIntField inst f.primaryKeyFieldName with
    | .error e => .error e
    | .ok pk =>
      match getAssocField inst f.destinationField with
      | .error e => .error e
      | .ok relVal =>
        match assocToInstance relVal with
        | .error e => .error e
        | .ok relInst =>
          let cur := match List.lookup pk m with
                     | some l => l
                     | none => []
          sliceLevelCollect f rest (idx + 1) (rels ++ [relInst]) (alistSet m pk (cur ++ [idx]))

/-- Depth>1 write-back loop of `preloadSlice`: a ToOne element whose
primary key has mapped relations receives the first of them. -/
def sliceLevelSetBack (f : PField) (rels : List PInstance) (m : List (Int × List Nat)) :
    List PInstance → List PInstance × Option String
  | [] => ([], none)
  | inst :: rest =>
    match getIntField inst f.primaryKeyFieldName with
    | .error e => (inst :: rest, some e)
    | .ok pk =>
      let idxs := match List.lookup pk m with
                  | some l => l
                  | none => []
      let updated : Except String PInstance :=
        match f.typeOne, idxs with
        | true, i :: _ =>
          match rels[i]? with
          | some r => setAssocField inst f.destinationField (.one r)
          | none => .ok inst
        | _, _ => .ok inst
      match updated with
      | .error e => (inst :: rest, some e)
      | .ok inst2 =>
        match sliceLevelSetBack f rels m rest with
        | (rest2, err) => (inst2 :: rest2, err)

/-- One field of `preloadSlice` (part_004). -/
def preloadSliceStep (d : PDriver) (level : Nat) (f : PField) (insts : List PInstance) :
    List PQuery × Option String × List PInstance :=
  if level > 1 then
    match sliceLevelCollect f insts 0 [] [] with
    | .error e => ([], some e, insts)
    | .ok (rels, m) =>
      match (if f.typeOne then preloadSliceOneP d f rels else preloadSliceManyP d f rels) with
      | (qs, some e, _) => (qs, some e, insts)
      | (qs, none, rels2) =>
        match sliceLevelSetBack f rels2 m insts with
        | (insts2, err) => (qs, err, insts2)
  else
    if f.typeOne then preloadSliceOneP d f insts
    else preloadSliceManyP d f insts

/-- Embedding of `preloadSlice` (part_004). -/
def preloadSliceP (d : PDriver) (level : Nat) :
    List PField → List PInstance → List PQuery × Option String × List PInstance
  | [], insts => ([], none, insts)
  | f :: rest, insts =>
    match preloadSliceStep d level f insts with
    | (qs, some e, insts2) => (qs, some e, insts2)
    | (qs, none, insts2) =>
      match preloadSliceP d level rest insts2 with
      | (qs2, err, insts3) => (qs ++ qs2, err, insts3)

/-- The preload root: `IsSlice(out)` dispatch data. -/
inductive PRootVal where
  | single (inst : PInstance)
  | slice (insts : List PInstance)

/-- The root argument of `preload` together with the outcome of Go's
`reflect.Indirect(reflect.ValueOf(out)).CanAddr()` addressability test. -/
structure PRoot where
  addressable : Bool
  val : PRootVal

def addressableErrMsg : String :=
  "model instance must be addressable (pointer required)"

/-- Character-level split used to model `strings.Split(path, ".")`
(structurally recursive so that concrete runs evaluate). -/
def splitChars (sep : Char) : List Char → List (List Char)
  | [] => [[]]
  | c :: rest =>
    let r := splitChars sep rest
    if c == sep then [] :: r
    else
      match r with
      | [] => [[c]]
      | g :: gs => (c :: g) :: gs

/-- Model of `strings.Split(s, ".")`. -/
def splitOnDot (s : String) : List String :=
  (splitChars '.' s.data).map (fun l => String.mk l)

/-- The path-resolution loop of `preload` (part_004 lines 42-59): each
path must be a key of the schema's association map; its destination field
is the first dot segment and its depth the number of segments.  The first
unresolvable path aborts the whole call. -/
def resolvePaths (schema : PSchema) : List String → Except String (List (Nat × PField))
  | [] => .ok []
  | p :: rest =>
    match List.lookup p schema.associations with
    | none => .error (p ++ " is not a valid association")
    | some f =>
      let splits := splitOnDot p
      let f2 := { f with destinationField := splits.headD "" }
      match resolvePaths schema rest with
      | .error e => .error e
      | .ok pairs => .ok ((splits.length, f2) :: pairs)

def insertNat (n : Nat) : List Nat → List Nat
  | [] => [n]
  | m :: rest => if n ≤ m then n :: m :: rest else m :: insertNat n rest

/-- Ascending sort of the depth keys (`sort.Ints`). -/
def sortNat : List Nat → List Nat
  | [] => []
  | n :: rest => insertNat n (sortNat rest)

/-- Distinct keys of the depth map, first occurrence kept. -/
def dedupNat : List Nat → List Nat
  | [] => []
  | n :: rest => n :: (dedupNat rest).filter (fun m => m != n)

/-- The fields grouped under one depth, in path order (`mapping[level]`). -/
def fieldsAtLevel (pairs : List (Nat × PField)) (l : Nat) : List PField :=
  (pairs.filter (fun p => p.1 == l)).map (fun p => p.2)

/-- The depth loop of `preload`: ascending levels, accumulating queries,
stopping at the first error but returning the queries issued so far. -/
def processLevels (d : PDriver) (pairs : List (Nat × PField)) :
    List Nat → PRootVal → List PQuery × Option String × PRootVal
  | [], rv => ([], none, rv)
  | l :: rest, rv =>
    match rv with
    | .single inst =>
      match preloadSingleP d l (fieldsAtLevel pairs l) inst with
      | (qs, some e, inst2) => (qs, some e, .single inst2)
      | (qs, none, inst2) =>
        match processLevels d pairs rest (.single inst2) with
        | (qs2, err, rv2) => (qs ++ qs2, err, rv2)
    | .slice insts =>
      match preloadSliceP d l (fieldsAtLevel pairs l) insts with
      | (qs, some e, insts2) => (qs, some e, .slice insts2)
      | (qs, none, insts2) =>
        match processLevels d pairs rest (.slice insts2) with
        | (qs2, err, rv2) => (qs ++ qs2, err, rv2)

/-- Embedding of `preload` (part_004): addressability guard, schema
lookup, resolution of every path before any query, then the depth-ordered
dispatch.  `schemaRes` is the outcome of `GetSchema(out)` for the root
type. -/
def preloadGo (d : PDriver) (root : PRoot) (schemaRes : Except String PSchema)
    (paths : List String) : List PQuery × Option String × PRoot :=
  if !root.addressable then ([], some addressableErrMsg, root)
  else
    match schemaRes with
    | .error e => ([], some e, root)
    | .ok schema =>
      match resolvePaths schema paths with
      | .error e => ([], some e, root)
      | .ok pairs =>
        let levels := sortNat (dedupNat (pairs.map (fun p => p.1)))
        match processLevels d pairs levels root.val with
        | (qs, err, rv) => (qs, err, ⟨root.addressable, rv⟩)

/-! Concrete values used to evaluate the embedded operations on explicit
inputs (the spec's own examples and small test fixtures). -/

/-- The example entity of the spec: plain columns `a` and `b`, an ignored
column `c`, table `t`. -/
def exFieldA : QField := ⟨"A", "a", []⟩

def exFieldB : QField := ⟨"B", "b", []⟩

def exFieldC : QField := ⟨"C", "c", [(StructTagName, ⟨[(StructTagIgnored, "true")]⟩)]⟩

def exPkField : QField := ⟨"ID", "id", []⟩

def exSchema : QSchema := ⟨"t", exPkField, [exFieldA, exFieldB, exFieldC]⟩

def exEntityZero : QEntity := ⟨0⟩

def exEntitySaved : QEntity := ⟨42⟩

/-- Retry fixture: driver 1 succeeds, every other driver fails. -/
def exHandler : Nat → Option String :=
  fun n => if n == 1 then none else some "boom"

/-- Preloader fixtures: a ToOne association `Good` from a root with
foreign-key field `GoodID` to the `goods` table. -/
def exRef : RefModel := ⟨"goods", "goods.id, goods.name"⟩

def exPFK : PFK := ⟨"GoodID", "Good", exRef, "id", "Goods", exRef⟩

def exGoodField : PField :=
  { name := "Good", isAssociation := true, typeOne := true, foreignKey := some exPFK,
    destinationField := "", primaryKeyFieldName := "ID", relationFieldName := "GoodID",
    relationColumnName := "id", relationPrimaryKeyFieldName := "ID" }

def exPSchema : PSchema := ⟨[("Good", exGoodField)]⟩

def exInst : PInstance := .mk [("ID", 1), ("GoodID", 7)] [("Good", .unset)]

def exInstZero : PInstance := .mk [("ID", 1), ("GoodID", 0)] [("Good", .unset)]

def exRelRow : PInstance := .mk [("ID", 7)] []

def exPDriver : PDriver := ⟨fun _ => .ok exRelRow, fun _ => .ok []⟩

def exRoot : PRoot := ⟨true, .single exInst⟩

/-- Slice fixture: four elements, foreign keys `2, 0, 2, 5` (three nonzero
with two distinct values), primary keys `1, 2, 3, 4`. -/
def exSlice : List PInstance :=
  [.mk [("ID", 1), ("GoodID", 2)] [("Good", .unset)],
   .mk [("ID", 2), ("GoodID", 0)] [("Good", .unset)],
   .mk [("ID", 3), ("GoodID", 2)] [("Good", .unset)],
   .mk [("ID", 4), ("GoodID", 5)] [("Good", .unset)]]

/-! Theorems.  Each claim of the specification is settled by exactly one
theorem below; shared helper lemmas precede them. -/

/-- C9: schema introspection on an entity with an association-shaped field
whose type does not implement the Model interface does not return a
configuration error value — the unchecked type assertion in
`newRelatedField` makes it crash (a Go panic), exhibited here on a model
with a struct-kinded `CreatedAt` field. -/
theorem getschema_crashes_on_non_model_association :
    GetSchemaGo badUserModel =
      GoResult.crash "interface conversion: related value does not implement sqlxx.Model" := by
  rfl

/-- C10: preload called on a non-addressable root returns the error
"model instance must be addressable (pointer required)" as a value, with
no queries issued, no dependence on the schema lookup's outcome, and the
root returned unchanged. -/
theorem preload_not_addressable_error (d : PDriver) (root : PRoot)
    (schemaRes : Except String PSchema) (paths : List String)
    (h : root.addressable = false) :
    preloadGo d root schemaRes paths = ([], some addressableErrMsg, root) := by
  simp [preloadGo, h]

theorem preload_not_addressable_error_witness :
    preloadGo exPDriver ⟨false, .single exInst⟩ (.ok exPSchema) ["Good"] =
      ([], some addressableErrMsg, ⟨false, .single exInst⟩) :=
  preload_not_addressable_error exPDriver ⟨false, .single exInst⟩ (.ok exPSchema) ["Good"] rfl

/-- C2: Delete and SoftDelete on an entity whose primary key is the zero
value return an error and submit no SQL statement to the driver (the
trace is empty, so the database — and the entity, which neither function
writes to — is unchanged). -/
theorem delete_softdelete_zero_pk_no_sql (d : QDriver) (s : QSchema) (e : QEntity)
    (fieldName : String) (h : isZeroValue e.pkValue = true) :
    (DeleteGo d s e).2 = [] ∧
    (DeleteGo d s e).1 = .error "has no primary key, cannot be deleted" ∧
    (SoftDeleteGo d s e fieldName).2 = [] ∧
    (SoftDeleteGo d s e fieldName).1 = .error "has no primary key, cannot be deleted" := by
  simp [DeleteGo, SoftDeleteGo, h]

theorem delete_softdelete_zero_pk_no_sql_witness :
    (DeleteGo okQDriver exSchema exEntityZero).2 = [] ∧
    (DeleteGo okQDriver exSchema exEntityZero).1 = .error "has no primary key, cannot be deleted" ∧
    (SoftDeleteGo okQDriver exSchema exEntityZero "DeletedAt").2 = [] ∧
    (SoftDeleteGo okQDriver exSchema exEntityZero "DeletedAt").1 =
      .error "has no primary key, cannot be deleted" :=
  delete_softdelete_zero_pk_no_sql okQDriver exSchema exEntityZero "DeletedAt" rfl

/-- Characterization of the Save collection loop: the written columns are
the non-ignored fields in order, each value is the literal default or the
bound parameter, and the RETURNING list is the ignored-or-defaulted
fields. -/
theorem saveCollect_eq (fs : List QField) :
    saveCollect fs =
      ((fs.filter (fun f => !f.isIgnored)).map (fun f => f.columnName),
       (fs.filter (fun f => f.isIgnored || f.hasDefault)).map (fun f => f.columnName),
       (fs.filter (fun f => !f.isIgnored)).map
         (fun f => if f.hasDefault then f.defaultVal else ":" ++ f.columnName)) := by
  induction fs with
  | nil => rfl
  | cons f rest ih =>
    by_cases h1 : f.isIgnored = true <;> by_cases h2 : f.hasDefault = true <;>
      simp [saveCollect, ih, List.filter_cons, h1, h2]

/-- Joining a one-element list is that element (`strings.Join` on the
singleton WHERE clause). -/
theorem intercalate_singleton (sep a : String) : String.intercalate sep [a] = a := by
  rfl

/-- C1: Save submits exactly one statement; it is an
`INSERT INTO table (cols) VALUES (vals)` statement exactly when the
entity's primary key holds the zero value and an
`UPDATE table SET ... WHERE pk = :pk` statement otherwise (`ret` is the
optional RETURNING suffix). -/
theorem save_builds_one_insert_or_update (d : QDriver) (s : QSchema) (e : QEntity) :
    (SaveGo d s e).2.length = 1 ∧
    (if isZeroValue e.pkValue then
       ∃ cols vals ret, (SaveGo d s e).2 =
         ["INSERT INTO " ++ s.tableName ++ " (" ++ cols ++ ") VALUES (" ++ vals ++ ")" ++ ret]
     else
       ∃ sets ret, (SaveGo d s e).2 =
         ["UPDATE " ++ s.tableName ++ " SET " ++ sets ++ " WHERE "
           ++ s.primaryField.columnName ++ " = :" ++ s.primaryField.columnName ++ ret]) := by
  refine ⟨rfl, ?_⟩
  set sc := saveCollect s.fields with hsc
  by_cases hz : isZeroValue e.pkValue = true
  · rw [if_pos hz]
    refine ⟨String.intercalate ", " sc.1, String.intercalate ", " sc.2.2,
      (if sc.2.1.length > 0 then " RETURNING " ++ String.intercalate ", " sc.2.1 else ""), ?_⟩
    simp only [SaveGo, ← hsc, hz, if_true]
    by_cases hig : sc.2.1.length > 0
    · rw [if_pos hig, if_pos hig]
    · rw [if_neg hig, if_neg hig, String.append_empty]
  · rw [if_neg hz]
    refine ⟨String.intercalate ", " (List.zipWith (fun cl v => cl ++ " = " ++ v) sc.1 sc.2.2),
      (if sc.2.1.length > 0 then " RETURNING " ++ String.intercalate ", " sc.2.1 else ""), ?_⟩
    simp only [SaveGo, ← hsc]
    rw [if_neg hz]
    rw [intercalate_singleton]
    by_cases hig : sc.2.1.length > 0
    · rw [if_pos hig, if_pos hig]
      simp only [String.append_assoc]
    · rw [if_neg hig, if_neg hig, String.append_empty]
      simp only [String.append_assoc]

/-- C5: the written column/value lists of Save exclude ignored fields,
defaulted fields contribute their literal expression in place of a bound
parameter, the RETURNING clause lists exactly the ignored-or-defaulted
columns and is appended iff at least one such field exists, and the
spec's example (columns a and b, ignored c, zero id) produces exactly
`INSERT INTO t (a, b) VALUES (:a, :b) RETURNING c`. -/
theorem save_ignores_and_defaults (d : QDriver) (s : QSchema) (e : QEntity) :
    (saveCollect s.fields).1 =
      (s.fields.filter (fun f => !f.isIgnored)).map (fun f => f.columnName) ∧
    (saveCollect s.fields).2.2 =
      (s.fields.filter (fun f => !f.isIgnored)).map
        (fun f => if f.hasDefault then f.defaultVal else ":" ++ f.columnName) ∧
    (saveCollect s.fields).2.1 =
      (s.fields.filter (fun f => f.isIgnored || f.hasDefault)).map (fun f => f.columnName) ∧
    (∃ base, (SaveGo d s e).2 =
      [base ++ (if (saveCollect s.fields).2.1.length > 0
                then " RETURNING " ++ String.intercalate ", " (saveCollect s.fields).2.1
                else "")]) ∧
    (SaveGo okQDriver exSchema exEntityZero).2 =
      ["INSERT INTO t (a, b) VALUES (:a, :b) RETURNING c"] := by
  refine ⟨by rw [saveCollect_eq], by rw [saveCollect_eq], by rw [saveCollect_eq], ?_, by rfl⟩
  set sc := saveCollect s.fields with hsc
  refine ⟨(if isZeroValue e.pkValue = true then
      "INSERT INTO " ++ s.tableName ++ " (" ++ String.intercalate ", " sc.1
        ++ ") VALUES (" ++ String.intercalate ", " sc.2.2 ++ ")"
    else
      "UPDATE " ++ s.tableName ++ " SET "
        ++ String.intercalate ", " (List.zipWith (fun cl v => cl ++ " = " ++ v) sc.1 sc.2.2)
        ++ " WHERE " ++ String.intercalate ", "
            [s.primaryField.columnName ++ " = :" ++ s.primaryField.columnName]), ?_⟩
  simp only [SaveGo, ← hsc]
  by_cases hig : sc.2.1.length > 0
  · rw [if_pos hig, if_pos hig]
  · rw [if_neg hig, if_neg hig, String.append_empty]

/-- Retry loop, all-failures case: the loop runs every driver in order and
carries out the last error. -/
theorem retryLoop_all_fail {D E : Type} (handler : D → Option E)
    (init : List D) (lastD : D) (eLast : E)
    (hfail : ∀ x ∈ init, ∃ e', handler x = some e')
    (hlast : handler lastD = some eLast) :
    ∀ errAcc, retryLoop handler errAcc (init ++ [lastD]) = (some eLast, init ++ [lastD]) := by
  induction init with
  | nil =>
    intro errAcc
    simp [retryLoop, hlast]
  | cons d ds ih =>
    intro errAcc
    obtain ⟨e, he⟩ := hfail d (by simp)
    have ih2 := ih (fun x hx => hfail x (by simp [hx])) (some e)
    simp [retryLoop, he, ih2]

/-- Retry loop, first-success case: the loop stops at the first driver the
handler accepts and never touches the rest. -/
theorem retryLoop_first_success {D E : Type} (handler : D → Option E)
    (pre : List D) (dOk : D) (post : List D)
    (hfail : ∀ x ∈ pre, ∃ e', handler x = some e')
    (hok : handler dOk = none) :
    ∀ errAcc, retryLoop handler errAcc (pre ++ dOk :: post) = (none, pre ++ [dOk]) := by
  induction pre with
  | nil =>
    intro errAcc
    simp [retryLoop, hok]
  | cons d ds ih =>
    intro errAcc
    obtain ⟨e, he⟩ := hfail d (by simp)
    have ih2 := ih (fun x hx => hfail x (by simp [hx])) (some e)
    simp [retryLoop, he, ih2]

/-- C8: Retry with an empty driver list fails without invoking the handler
(empty invocation trace); with a non-empty list it invokes the handler on
each driver strictly in order — if every driver fails it returns the last
driver's error having invoked all of them, and at the first success it
returns nil having invoked no further drivers. -/
theorem retry_order_and_errors {D E : Type} (handler : D → Option E) :
    (RetryGo handler ([] : List D) = (some .missingConnection, [])) ∧
    (∀ (init : List D) (lastD : D) (eLast : E),
        (∀ x ∈ init, ∃ e', handler x = some e') → handler lastD = some eLast →
        RetryGo handler (init ++ [lastD]) =
          (some (.handlerError eLast), init ++ [lastD])) ∧
    (∀ (pre : List D) (dOk : D) (post : List D),
        (∀ x ∈ pre, ∃ e', handler x = some e') → handler dOk = none →
        RetryGo handler (pre ++ dOk :: post) = (none, pre ++ [dOk])) := by
  refine ⟨rfl, ?_, ?_⟩
  · intro init lastD eLast hfail hlast
    have h := retryLoop_all_fail handler init lastD eLast hfail hlast none
    have hne : (init ++ [lastD]).isEmpty = false := by
      cases init <;> simp
    simp [RetryGo, hne, h]
  · intro pre dOk post hfail hok
    have h := retryLoop_first_success handler pre dOk post hfail hok none
    have hne : (pre ++ dOk :: post).isEmpty = false := by
      cases pre <;> simp
    simp [RetryGo, hne, h]

theorem retry_order_and_errors_witness :
    (RetryGo exHandler ([] : List Nat) = (some .missingConnection, [])) ∧
    RetryGo exHandler [0, 1, 5] = (none, [0, 1]) ∧
    RetryGo exHandler [0, 2] = (some (.handlerError "boom"), [0, 2]) := by
  refine ⟨(retry_order_and_errors exHandler).1, ?_, ?_⟩
  · have h := (retry_order_and_errors exHandler).2.2 [0] 1 [5]
      (by intro x hx; simp at hx; subst hx; exact ⟨"boom", rfl⟩) rfl
    simpa using h
  · have h := (retry_order_and_errors exHandler).2.1 [0] 2 "boom"
      (by intro x hx; simp at hx; subst hx; exact ⟨"boom", rfl⟩) rfl
    simpa using h

/-- If some requested path is not a declared association, path resolution
fails with the configuration error of the first such path. -/
theorem resolvePaths_err_of_invalid (schema : PSchema) (paths : List String) (p : String)
    (hp : p ∈ paths) (hinv : List.lookup p schema.associations = none) :
    ∃ q, q ∈ paths ∧ List.lookup q schema.associations = none ∧
      resolvePaths schema paths = .error (q ++ " is not a valid association") := by
  induction paths with
  | nil => cases hp
  | cons a rest ih =>
    by_cases ha : List.lookup a schema.associations = none
    · exact ⟨a, by simp, ha, by simp [resolvePaths, ha]⟩
    · obtain ⟨f, hf⟩ := Option.ne_none_iff_exists'.mp ha
      obtain (rfl | hrest) := List.mem_cons.mp hp
      · exact absurd hinv ha
      · obtain ⟨q, hq1, hq2, hq3⟩ := ih hrest
        exact ⟨q, by simp [hq1], hq2, by simp [resolvePaths, hf, hq3]⟩

/-- C6: if any requested path does not resolve to a declared association
of the root schema, preload returns that configuration error, issues no
query at all, and leaves the root untouched — resolution of every path
happens before the first query of any depth. -/
theorem preload_invalid_path_no_queries (d : PDriver) (root : PRoot) (schema : PSchema)
    (paths : List String) (p : String)
    (haddr : root.addressable = true)
    (hp : p ∈ paths) (hinv : List.lookup p schema.associations = none) :
    (preloadGo d root (.ok schema) paths).1 = [] ∧
    (∃ q, q ∈ paths ∧ List.lookup q schema.associations = none ∧
        (preloadGo d root (.ok schema) paths).2.1 =
          some (q ++ " is not a valid association")) ∧
    (preloadGo d root (.ok schema) paths).2.2 = root := by
  obtain ⟨q, h1, h2, h3⟩ := resolvePaths_err_of_invalid schema paths p hp hinv
  refine ⟨?_, ⟨q, h1, h2, ?_⟩, ?_⟩ <;> simp [preloadGo, haddr, h3]

theorem preload_invalid_path_no_queries_witness :
    (preloadGo exPDriver exRoot (.ok exPSchema) ["Bad"]).1 = [] ∧
    (∃ q, q ∈ ["Bad"] ∧ List.lookup q exPSchema.associations = none ∧
        (preloadGo exPDriver exRoot (.ok exPSchema) ["Bad"]).2.1 =
          some (q ++ " is not a valid association")) ∧
    (preloadGo exPDriver exRoot (.ok exPSchema) ["Bad"]).2.2 = exRoot :=
  preload_invalid_path_no_queries exPDriver exRoot exPSchema ["Bad"] "Bad" rfl
    (by simp) (by rfl)

/-- C4 as stated is false: the counterexample call requests the valid path
`Good` together with the invalid path `Bad`; no query at all is issued
(the valid path is not processed), although the same call with `Good`
alone issues one query. -/
theorem preload_path_failure_counterexample :
    ((preloadGo exPDriver exRoot (.ok exPSchema) ["Good", "Bad"]).1 = [] ∧
     (preloadGo exPDriver exRoot (.ok exPSchema) ["Good", "Bad"]).2.1 =
       some "Bad is not a valid association") ∧
    (preloadGo exPDriver exRoot (.ok exPSchema) ["Good"]).1.length = 1 := by
  exact ⟨⟨rfl, rfl⟩, by decide⟩

/-- C4 amended: when one of several requested paths fails to resolve, the
other valid paths are NOT processed — the whole preload call aborts with
the configuration error before issuing any query, including for paths
that do resolve. -/
theorem preload_invalid_path_aborts_all (d : PDriver) (root : PRoot) (schema : PSchema)
    (paths : List String) (p good : String) (f : PField)
    (haddr : root.addressable = true)
    (hp : p ∈ paths) (hinv : List.lookup p schema.associations = none)
    (_hgood : good ∈ paths) (_hres : List.lookup good schema.associations = some f) :
    (preloadGo d root (.ok schema) paths).1 = [] ∧
    ((preloadGo d root (.ok schema) paths).2.1).isSome = true := by
  obtain ⟨q, _, _, h3⟩ := resolvePaths_err_of_invalid schema paths p hp hinv
  constructor <;> simp [preloadGo, haddr, h3]

theorem preload_invalid_path_aborts_all_witness :
    (preloadGo exPDriver exRoot (.ok exPSchema) ["Good", "Bad"]).1 = [] ∧
    ((preloadGo exPDriver exRoot (.ok exPSchema) ["Good", "Bad"]).2.1).isSome = true :=
  preload_invalid_path_aborts_all exPDriver exRoot exPSchema ["Good", "Bad"] "Bad" "Good"
    exGoodField rfl (by simp) (by rfl) (by simp) (by rfl)

/-- C7: preloading a ToOne association on a single root entity whose
foreign-key scalar holds the zero value issues no query, leaves the
destination association field unchanged at its current value, and returns
success (nil error). -/
theorem preload_single_one_zero_fk (d : PDriver) (inst : PInstance)
    (schema : PSchema) (p : String) (f : PField) (pfk : PFK)
    (hlookup : List.lookup p schema.associations = some f)
    (hsplit : splitOnDot p = [p])
    (hone : f.typeOne = true)
    (hassoc : f.isAssociation = true)
    (hfk : f.foreignKey = some pfk)
    (hzero : getIntField inst pfk.fieldName = .ok 0) :
    preloadGo d ⟨true, .single inst⟩ (.ok schema) [p] = ([], none, ⟨true, .single inst⟩) := by
  have hres : resolvePaths schema [p] = .ok [(1, { f with destinationField := p })] := by
    simp [resolvePaths, hlookup, hsplit]
  simp [preloadGo, hres, processLevels, fieldsAtLevel, sortNat, dedupNat, insertNat,
        preloadSingleP, preloadSingleStep, preloadSingleOneP, checkAssociationP,
        hone, hassoc, hfk, hzero]

theorem preload_single_one_zero_fk_witness :
    preloadGo exPDriver ⟨true, .single exInstZero⟩ (.ok exPSchema) ["Good"] =
      ([], none, ⟨true, .single exInstZero⟩) :=
  preload_single_one_zero_fk exPDriver exInstZero exPSchema "Good" exGoodField exPFK
    rfl rfl rfl rfl rfl rfl

/-- Membership in the distinct-nonzero accumulator. -/
theorem insertDistinctNonzero_mem (keys : List Int) (k x : Int) :
    x ∈ insertDistinctNonzero keys k ↔ (x ∈ keys ∨ (x = k ∧ k ≠ 0)) := by
  unfold insertDistinctNonzero
  by_cases h0 : k = 0
  · simp [h0]
  · by_cases hc : keys.contains k = true
    · have hm : k ∈ keys := List.elem_iff.mp hc
      simp only [hc, Bool.not_true, Bool.and_false, if_neg (by simp : ¬(false = true))]
      constructor
      · exact Or.inl
      · rintro (h | ⟨rfl, _⟩)
        · exact h
        · exact hm
    · have hcf : keys.contains k = false := by
        simpa using hc
      have hcond : (k != 0 && !keys.contains k) = true := by
        rw [Bool.and_eq_true, bne_iff_ne]
        exact ⟨h0, by rw [hcf]; rfl⟩
      rw [if_pos hcond]
      simp [List.mem_append, h0]

/-- The accumulator stays duplicate-free. -/
theorem insertDistinctNonzero_nodup (keys : List Int) (k : Int) (h : keys.Nodup) :
    (insertDistinctNonzero keys k).Nodup := by
  unfold insertDistinctNonzero
  split
  · rename_i hcond
    rw [Bool.and_eq_true] at hcond
    have hne : k ∉ keys := by
      intro hm
      have helem : keys.contains k = true := List.elem_iff.mpr hm
      rw [helem] at hcond
      simp at hcond
    simp [List.nodup_append, h, hne]
  · exact h

/-- The accumulator stays zero-free. -/
theorem insertDistinctNonzero_nonzero (keys : List Int) (k : Int)
    (h : ∀ x ∈ keys, x ≠ 0) : ∀ x ∈ insertDistinctNonzero keys k, x ≠ 0 := by
  intro x hx
  rcases (insertDistinctNonzero_mem keys k x).mp hx with hmem | ⟨rfl, hk⟩
  · exact h x hmem
  · exact hk

/-- Specification of the `preloadSliceOne` collection loop: it succeeds
whenever every element has both key fields, and its key list extends the
accumulator with exactly the distinct nonzero foreign keys present. -/
theorem sliceOneCollect_spec (f : PField) :
    ∀ (insts : List PInstance) (idx : Nat) (fks : List Int)
      (m : List (Int × List (Int × Nat))),
      (∀ inst ∈ insts, (∃ a, getIntField inst f.primaryKeyFieldName = .ok a) ∧
          (∃ b, getIntField inst f.relationFieldName = .ok b)) →
      ∃ fks2 m2, sliceOneCollect f insts idx fks m = .ok (fks2, m2) ∧
        (fks.Nodup → fks2.Nodup) ∧
        ((∀ x ∈ fks, x ≠ 0) → ∀ x ∈ fks2, x ≠ 0) ∧
        (∀ x, x ∈ fks2 ↔ (x ∈ fks ∨ (x ≠ 0 ∧
            ∃ inst ∈ insts, getIntField inst f.relationFieldName = .ok x))) := by
  intro insts
  induction insts with
  | nil =>
    intro idx fks m _
    exact ⟨fks, m, rfl, id, id, by simp⟩
  | cons inst rest ih =>
    intro idx fks m hread
    obtain ⟨⟨a, ha⟩, ⟨b, hb⟩⟩ := hread inst (by simp)
    obtain ⟨fks2, m2, h1, h2, h3, h4⟩ :=
      ih (idx + 1) (insertDistinctNonzero fks b)
        (alistSet m a (alistSet ((List.lookup a m).getD []) b idx))
        (fun i hi => hread i (by simp [hi]))
    refine ⟨fks2, m2, ?_, ?_, ?_, ?_⟩
    · simp only [sliceOneCollect, ha, hb]
      exact h1
    · exact fun hnd => h2 (insertDistinctNonzero_nodup fks b hnd)
    · exact fun hnz => h3 (insertDistinctNonzero_nonzero fks b hnz)
    · intro x
      rw [h4 x]
      constructor
      · rintro (hx | ⟨hx0, i, hi, hri⟩)
        · rcases (insertDistinctNonzero_mem fks b x).mp hx with h | ⟨rfl, hb0⟩
          · exact Or.inl h
          · exact Or.inr ⟨hb0, inst, by simp, hb⟩
        · exact Or.inr ⟨hx0, i, by simp [hi], hri⟩
      · rintro (hx | ⟨hx0, i, hi, hri⟩)
        · exact Or.inl ((insertDistinctNonzero_mem fks b x).mpr (Or.inl hx))
        · rcases List.mem_cons.mp hi with rfl | hi2
          · rw [hb] at hri
            injection hri with hbx
            exact Or.inl ((insertDistinctNonzero_mem fks b x).mpr
              (Or.inr ⟨hbx.symm, by rw [hbx]; exact hx0⟩))
          · exact Or.inr ⟨hx0, i, hi2, hri⟩

/-- Specification of the `preloadSliceMany` collection loop. -/
theorem sliceManyCollect_spec (f : PField) :
    ∀ (insts : List PInstance) (idx : Nat) (fks : List Int) (m : List (Int × Nat)),
      (∀ inst ∈ insts, ∃ a, getIntField inst f.primaryKeyFieldName = .ok a) →
      ∃ fks2 m2, sliceManyCollect f insts idx fks m = .ok (fks2, m2) ∧
        (fks.Nodup → fks2.Nodup) ∧
        ((∀ x ∈ fks, x ≠ 0) → ∀ x ∈ fks2, x ≠ 0) ∧
        (∀ x, x ∈ fks2 ↔ (x ∈ fks ∨ (x ≠ 0 ∧
            ∃ inst ∈ insts, getIntField inst f.primaryKeyFieldName = .ok x))) := by
  intro insts
  induction insts with
  | nil =>
    intro idx fks m _
    exact ⟨fks, m, rfl, id, id, by simp⟩
  | cons inst rest ih =>
    intro idx fks m hread
    obtain ⟨a, ha⟩ := hread inst (by simp)
    by_cases hcond : (a != 0 && !fks.contains a) = true
    · obtain ⟨fks2, m2, h1, h2, h3, h4⟩ :=
        ih (idx + 1) (fks ++ [a]) (m ++ [(a, idx)]) (fun i hi => hread i (by simp [hi]))
      rw [Bool.and_eq_true, bne_iff_ne] at hcond
      have hnotin : a ∉ fks := by
        intro hm
        have helem : fks.contains a = true := List.elem_iff.mpr hm
        rw [helem] at hcond
        simp at hcond
      refine ⟨fks2, m2, ?_, ?_, ?_, ?_⟩
      · simp only [sliceManyCollect, ha]
        rw [if_pos (by rw [Bool.and_eq_true, bne_iff_ne]; exact hcond)]
        exact h1
      · intro hnd
        exact h2 (by simp [List.nodup_append, hnd, hnotin])
      · intro hnz
        refine h3 ?_
        intro x hx
        rcases List.mem_append.mp hx with h | h
        · exact hnz x h
        · simp at h
          subst h
          exact hcond.1
      · intro x
        rw [h4 x]
        constructor
        · rintro (hx | ⟨hx0, i, hi, hri⟩)
          · rcases List.mem_append.mp hx with h | h
            · exact Or.inl h
            · simp at h
              subst h
              exact Or.inr ⟨hcond.1, inst, by simp, ha⟩
          · exact Or.inr ⟨hx0, i, by simp [hi], hri⟩
        · rintro (hx | ⟨hx0, i, hi, hri⟩)
          · exact Or.inl (List.mem_append.mpr (Or.inl hx))
          · rcases List.mem_cons.mp hi with rfl | hi2
            · have hax : a = x := by
                rw [ha] at hri
                cases hri
                rfl
              subst hax
              exact Or.inl (List.mem_append.mpr (Or.inr (by simp)))
            · exact Or.inr ⟨hx0, i, hi2, hri⟩
    · obtain ⟨fks2, m2, h1, h2, h3, h4⟩ :=
        ih (idx + 1) fks m (fun i hi => hread i (by simp [hi]))
      refine ⟨fks2, m2, ?_, h2, h3, ?_⟩
      · simp only [sliceManyCollect, ha]
        rw [if_neg hcond]
        exact h1
      · intro x
        rw [h4 x]
        constructor
        · rintro (hx | ⟨hx0, i, hi, hri⟩)
          · exact Or.inl hx
          · exact Or.inr ⟨hx0, i, by simp [hi], hri⟩
        · rintro (hx | ⟨hx0, i, hi, hri⟩)
          · exact Or.inl hx
          · rcases List.mem_cons.mp hi with rfl | hi2
            · have hax : a = x := by
                rw [ha] at hri
                cases hri
                rfl
              subst hax
              rw [Bool.and_eq_true, bne_iff_ne] at hcond
              push_neg at hcond
              have hmem : a ∈ fks := by
                by_cases hz : a = 0
                · exact absurd hz hx0
                · have := hcond hz
                  simp at this
                  exact List.elem_iff.mp (by simpa using this)
              exact Or.inl hmem
            · exact Or.inr ⟨hx0, i, hi2, hri⟩

/-- `preloadSliceOne` issues exactly the one batched query built from the
collected foreign keys, whatever the driver and redistribution do. -/
theorem preloadSliceOneP_queries (d : PDriver) (f : PField) (pfk : PFK)
    (insts : List PInstance) (fks : List Int) (m : List (Int × List (Int × Nat)))
    (hfk : f.foreignKey = some pfk)
    (hcol : sliceOneCollect f insts 0 [] [] = .ok (fks, m)) :
    (preloadSliceOneP d f insts).1 =
      [⟨whereQueryP pfk.referenceModel [(f.relationColumnName, PVal.ints fks)] false,
        [(f.relationColumnName, PVal.ints fks)], false⟩] := by
  unfold preloadSliceOneP
  rw [hcol, hfk]
  unfold findByParamsWithQueriesP
  cases hsel : d.select ⟨whereQueryP pfk.referenceModel
      [(f.relationColumnName, PVal.ints fks)] false,
      [(f.relationColumnName, PVal.ints fks)], false⟩ with
  | error e => simp [hsel]
  | ok rels =>
    rcases hap : sliceOneApply f pfk.associationFieldName rels m insts with ⟨i2, err⟩
    simp [hsel, hap]

/-- `preloadSliceMany` issues exactly the one batched query built from the
collected primary keys. -/
theorem preloadSliceManyP_queries (d : PDriver) (f : PField) (pfk : PFK)
    (insts : List PInstance) (fks : List Int) (m : List (Int × Nat))
    (hfk : f.foreignKey = some pfk)
    (hcol : sliceManyCollect f insts 0 [] [] = .ok (fks, m)) :
    (preloadSliceManyP d f insts).1 =
      [⟨whereQueryP pfk.model [(f.relationColumnName, PVal.ints fks)] false,
        [(f.relationColumnName, PVal.ints fks)], false⟩] := by
  unfold preloadSliceManyP
  rw [hcol, hfk]
  unfold findByParamsWithQueriesP
  cases hsel : d.select ⟨whereQueryP pfk.model
      [(f.relationColumnName, PVal.ints fks)] false,
      [(f.relationColumnName, PVal.ints fks)], false⟩ with
  | error e => simp [hsel]
  | ok rels =>
    cases hgr : sliceManyGroup pfk.fieldName rels m with
    | error e => simp [hsel, hgr]
    | ok groups =>
      rcases hap : sliceManyApply pfk.referenceAssociationFieldName groups insts with ⟨i2, err⟩
      simp [hsel, hgr, hap]

/-- C3: over a slice of N elements, each slice preload issues exactly one
batched query per association — its bound key list is the set of distinct
nonzero keys read across every element (foreign keys for ToOne, primary
keys for ToMany) — independent of N. -/
theorem preload_slice_batching (d : PDriver) (f : PField) (pfk : PFK)
    (insts : List PInstance)
    (hfk : f.foreignKey = some pfk)
    (hread : ∀ inst ∈ insts, (∃ a, getIntField inst f.primaryKeyFieldName = .ok a) ∧
        (∃ b, getIntField inst f.relationFieldName = .ok b)) :
    (∃ fks, (preloadSliceOneP d f insts).1 =
        [⟨whereQueryP pfk.referenceModel [(f.relationColumnName, PVal.ints fks)] false,
          [(f.relationColumnName, PVal.ints fks)], false⟩] ∧
      fks.Nodup ∧ (∀ k ∈ fks, k ≠ 0) ∧
      (∀ k, k ∈ fks ↔ (k ≠ 0 ∧
          ∃ inst ∈ insts, getIntField inst f.relationFieldName = .ok k))) ∧
    (∃ pks, (preloadSliceManyP d f insts).1 =
        [⟨whereQueryP pfk.model [(f.relationColumnName, PVal.ints pks)] false,
          [(f.relationColumnName, PVal.ints pks)], false⟩] ∧
      pks.Nodup ∧ (∀ k ∈ pks, k ≠ 0) ∧
      (∀ k, k ∈ pks ↔ (k ≠ 0 ∧
          ∃ inst ∈ insts, getIntField inst f.primaryKeyFieldName = .ok k))) := by
  constructor
  · obtain ⟨fks2, m2, h1, h2, h3, h4⟩ := sliceOneCollect_spec f insts 0 [] [] hread
    refine ⟨fks2, preloadSliceOneP_queries d f pfk insts fks2 m2 hfk h1,
      h2 (by simp), h3 (by simp), ?_⟩
    intro k
    rw [h4 k]
    simp
  · obtain ⟨pks2, m2, h1, h2, h3, h4⟩ :=
      sliceManyCollect_spec f insts 0 [] [] (fun i hi => (hread i hi).1)
    refine ⟨pks2, preloadSliceManyP_queries d f pfk insts pks2 m2 hfk h1,
      h2 (by simp), h3 (by simp), ?_⟩
    intro k
    rw [h4 k]
    simp

theorem preload_slice_batching_witness :
    (preloadSliceOneP exPDriver exGoodField exSlice).1.length = 1 ∧
    (preloadSliceManyP exPDriver exGoodField exSlice).1.length = 1 := by
  obtain ⟨⟨fks, h1, -, -, -⟩, ⟨pks, h2, -, -, -⟩⟩ :=
    preload_slice_batching exPDriver exGoodField exPFK exSlice rfl
      (by intro inst hi; fin_cases hi <;> exact ⟨⟨_, rfl⟩, ⟨_, rfl⟩⟩)
  exact ⟨by rw [h1]; rfl, by rw [h2]; rfl⟩

end Sqlxx